import Mathlib

/-!
# Verification development for `server.mjs`

A shallow embedding of the text helpers (`tokenize`, `similarity`) and of the
reliability aggregator (`buildReliability`) of `src/server.mjs`, followed by
theorems about them.

## Modelling choices

* A JavaScript string is a sequence of UTF-16 code units: `JSString := List Nat`.
  `utf16` encodes a Lean string literal so that examples stay readable.
* `String.prototype.toLowerCase` is a built-in of the runtime.  `lowerUnit`
  carries the three kinds of entry of the Unicode lower-case table whose
  image meets the character class of `tokenize`: `A`-`Z`, U+0130 (to `i`
  followed by U+0307) and U+212A KELVIN SIGN (to `k`).  Every other entry
  of that table has both its source and its image outside the class
  `[ก-ฮa-z0-9\s]` (matched with the `i` flag), so `tokenize` turns both
  into a separator; those units are left unchanged here.
* The regular expression `/[^ก-ฮa-z0-9\s]/gi` has no `u` flag: it works on
  single code units, and the `i` flag compares canonical (upper-cased)
  units, which adds `A`-`Z` to the class and nothing else (a unit of value
  128 or more is never canonicalised to an ASCII unit).
* Numbers are IEEE doubles in the source.  A similarity is the quotient of
  two token counts; it is modelled as the exact rational.  The comparisons
  of the source (`> 0.7`, `> 0.45`, `> 0.25`, and the sign of `b.sim - a.sim`)
  agree with the rational ones as long as the token counts stay below
  `2 ^ 26`, far above what a request body and a provider answer can hold.
* `Array.prototype.sort` is stable (ECMAScript 2019); with a comparator that
  is a total preorder its result is unique, and is computed here by a
  stable insertion sort.
* The network behind `fetch` is a parameter `provider` of `fetchFromGdelt` and
  of the handler: it maps the query parameters to what `await fetch(url)` does,
  a rejection or an answer with a status and a body.  The body is kept as far
  as `res.json()` and `data.articles || data.documents || []` look at it.
  An exception is an `Except.error`.  Of the log line of the non-success branch
  only the awaited `res.text()` is kept, since it can reject; what is written
  to the console is left out.
* The fields of a raw item, and the `text` of a request body, are absent or a
  string, as the provider and the interface of the endpoint have them; other
  JSON values in these places are outside the model.
-/

namespace Server

/-! ## Strings -/

/-- A JavaScript string: its UTF-16 code units. -/
abbrev JSString := List Nat

/-- UTF-16 code units of one code point. -/
def utf16Char (c : Char) : List Nat :=
  if c.toNat < 0x10000 then [c.toNat]
  else [0xD800 + (c.toNat - 0x10000) / 0x400, 0xDC00 + (c.toNat - 0x10000) % 0x400]

/-- UTF-16 encoding of a string literal. -/
def utf16 (s : String) : JSString :=
  s.toList.flatMap utf16Char

/-! ## Character classes of the regular expressions -/

/-- The range `ก-ฮ` of the source: U+0E01 to U+0E2E. -/
def isThaiRange (c : Nat) : Bool := decide (0x0E01 ≤ c) && decide (c ≤ 0x0E2E)

/-- The range `a-z`. -/
def isLatinLower (c : Nat) : Bool := decide (0x61 ≤ c) && decide (c ≤ 0x7A)

/-- The range `A-Z`. -/
def isLatinUpper (c : Nat) : Bool := decide (0x41 ≤ c) && decide (c ≤ 0x5A)

/-- The range `0-9`. -/
def isDigit (c : Nat) : Bool := decide (0x30 ≤ c) && decide (c ≤ 0x39)

/-- The class `\s` of ECMAScript: white space and line terminators. -/
def isSpace (c : Nat) : Bool :=
  (decide (0x09 ≤ c) && decide (c ≤ 0x0D)) || c == 0x20 || c == 0xA0 || c == 0x1680 ||
  (decide (0x2000 ≤ c) && decide (c ≤ 0x200A)) || c == 0x2028 || c == 0x2029 ||
  c == 0x202F || c == 0x205F || c == 0x3000 || c == 0xFEFF

/-- Membership in `[ก-ฮa-z0-9\s]` under the `i` flag. -/
def inClass (c : Nat) : Bool :=
  isThaiRange c || isLatinLower c || isLatinUpper c || isDigit c || isSpace c

/-- The units of the class that are not white space: what a token is made of. -/
def isWordUnit (c : Nat) : Bool :=
  isThaiRange c || isLatinLower c || isLatinUpper c || isDigit c

/-! ## `tokenize` -/

/-- Lower-casing of one code unit (see the modelling choices above). -/
def lowerUnit (c : Nat) : List Nat :=
  if isLatinUpper c then [c + 0x20]
  else if c = 0x0130 then [0x69, 0x0307]
  else if c = 0x212A then [0x6B]
  else [c]

/-- The method `text.toLowerCase()`. -/
def toLowerCase (text : JSString) : JSString :=
  text.flatMap lowerUnit

/-- The call `.replace(/[^ก-ฮa-z0-9\s]/gi, " ")`: every unit outside the class
becomes a space. -/
def replaceNonWord (text : JSString) : JSString :=
  text.map fun c => if inClass c then c else 0x20

/-- The call `.split(/\s+/)`: the pieces between maximal runs of white space.
A leading or trailing run leaves an empty piece, and the empty string splits
into one empty piece. -/
def splitSpaces : JSString → List JSString
  | [] => [[]]
  | c :: cs =>
    if isSpace c then
      match cs with
      | [] => [[], []]
      | d :: _ => if isSpace d then splitSpaces cs else [] :: splitSpaces cs
    else
      match splitSpaces cs with
      | [] => [[c]]
      | w :: ws => (c :: w) :: ws

/-- The call `.filter(Boolean)` on strings: the non-empty ones. -/
def filterBoolean (pieces : List JSString) : List JSString :=
  pieces.filter fun p => !p.isEmpty

/-- The function `tokenize` of the source. -/
def tokenize (text : JSString) : List JSString :=
  filterBoolean (splitSpaces (replaceNonWord (toLowerCase text)))

/-! ## `similarity` -/

/-- The method `Set.prototype.add`: a value already present is not added again,
a new one goes last. -/
def setAdd (s : List JSString) (t : JSString) : List JSString :=
  if t ∈ s then s else s ++ [t]

/-- The constructor `new Set(tokens)`: the distinct tokens, in order of first
occurrence. -/
def newSet (tokens : List JSString) : List JSString :=
  tokens.foldl setAdd []

/-- The loop `for (const t of ta) if (tb.has(t)) inter++`, from `inter = 0`. -/
def countInter (ta tb : List JSString) : Nat :=
  ta.foldl (fun inter t => if t ∈ tb then inter + 1 else inter) 0

/-- The function `similarity` of the source. -/
def similarity (a b : JSString) : ℚ :=
  let ta := newSet (tokenize a)
  let tb := newSet (tokenize b)
  if ta.length = 0 ∨ tb.length = 0 then 0
  else
    let inter := countInter ta tb
    (inter : ℚ) / ((max ta.length tb.length : Nat) : ℚ)

/-! ## `buildReliability` -/

/-- A normalized article, as `fetchFromGdelt` builds it. -/
structure Article where
  title : JSString
  description : JSString
  url : JSString
  source : JSString
  publishedAt : Option JSString
  deriving DecidableEq

/-- An article with its score: the object `{ ...a, sim }`. -/
structure ScoredArticle extends Article where
  sim : ℚ
  deriving DecidableEq

/-- The object returned by `buildReliability`.  The field `matches` of the source
is `topMatches` here (`matches` is reserved in Lean); `topMatch` is absent from
the verdict of an empty article list. -/
structure Verdict where
  score : Nat
  reason : String
  topMatch : Option ScoredArticle
  topMatches : List ScoredArticle
  deriving DecidableEq

/-- The operator `x || y` on strings: the empty string is the only falsy one. -/
def strOr (x y : JSString) : JSString :=
  if x.isEmpty then y else x

/-- The template `${a.title} ${a.description || ""}`. -/
def baseText (a : Article) : JSString :=
  a.title ++ [0x20] ++ strOr a.description []

/-- The callback of `articles.map`: the article with its similarity to the input. -/
def scoreArticle (inputText : JSString) (a : Article) : ScoredArticle :=
  { toArticle := a, sim := similarity inputText (baseText a) }

/-- Order of the comparator `(a, b) => b.sim - a.sim`: `a` may stand before `b`. -/
def simGe (a b : ScoredArticle) : Prop := b.sim ≤ a.sim

instance : DecidableRel simGe := fun a b => inferInstanceAs (Decidable (b.sim ≤ a.sim))

/-- The call `.sort((a, b) => b.sim - a.sim)`: the stable sort by descending
similarity. -/
def sortBySim (scored : List ScoredArticle) : List ScoredArticle :=
  scored.insertionSort simGe

/-- The threshold ladder of `buildReliability`: score and reason for `topSim`. -/
def ladder (topSim : ℚ) : Nat × String :=
  if topSim > 0.7 then (90, "พบข่าวที่มีเนื้อหาใกล้เคียงมากในฐานข่าวระดับโลก")
  else if topSim > 0.45 then (70, "พบข่าวที่ใกล้เคียงระดับหนึ่ง")
  else if topSim > 0.25 then (50, "พบข่าวที่เกี่ยวข้องห่าง ๆ")
  else (30, "ข่าวที่พบยังไม่ตรงสาระสำคัญของข้อความนี้")

/-- The function `buildReliability` of the source. -/
def buildReliability (inputText : JSString) (articles : List Article) : Verdict :=
  match articles with
  | [] => { score := 25, reason := "ไม่พบข่าวที่ใกล้เคียง", topMatch := none, topMatches := [] }
  | first :: others =>
    let scored := sortBySim ((first :: others).map (scoreArticle inputText))
    let top := scored.head (by
      intro h
      have hl : scored.length = others.length + 1 := by
        show (List.insertionSort simGe _).length = _
        rw [List.length_insertionSort, List.length_map, List.length_cons]
      rw [h] at hl
      exact Nat.succ_ne_zero _ hl.symm)
    let topSim := top.sim
    let verdict := ladder topSim
    { score := verdict.1, reason := verdict.2, topMatch := some top, topMatches := scored.take 10 }

/-- An article with only a title and a description. -/
def mkArticle (title description : String) : Article :=
  { title := utf16 title, description := utf16 description, url := [], source := utf16 "GDELT",
    publishedAt := none }

/-! ## `fetchFromGdelt` -/

/-- A raw item of the provider's answer.  Each field the adapter reads is absent
(`none`: `undefined` or `null`) or a string; other JSON values are outside this
model. -/
structure RawItem where
  title : Option JSString
  semtag : Option JSString
  seendesc : Option JSString
  excerpt : Option JSString
  url : Option JSString
  shareurl : Option JSString
  sourceurl : Option JSString
  domain : Option JSString
  source : Option JSString
  seendate : Option JSString
  date : Option JSString
  deriving DecidableEq

/-- Truthiness of a possibly absent string: it is there and it is not empty. -/
def truthy : Option JSString → Bool
  | some s => !s.isEmpty
  | none => false

/-- The operator `x || y` on possibly absent strings. -/
def jsOr (x y : Option JSString) : Option JSString :=
  if truthy x then x else y

/-- The operator `x || d` with a string literal `d`: the result is a string. -/
def jsOrStr (x : Option JSString) (d : JSString) : JSString :=
  match x with
  | some s => if s.isEmpty then d else s
  | none => d

/-- The callback of `articles.map` in `fetchFromGdelt`: a raw item made an
article.  `publishedAt` is `null` (`none`) when no date is there. -/
def normalizeItem (a : RawItem) : Article :=
  { title := jsOrStr (jsOr a.title a.semtag) []
    description := jsOrStr (jsOr a.seendesc a.excerpt) []
    url := jsOrStr (jsOr (jsOr a.url a.shareurl) a.sourceurl) []
    source := jsOrStr (jsOr a.domain a.source) (utf16 "GDELT")
    publishedAt := jsOr (jsOr a.seendate a.date) none }

/-- The value of `data.articles` or of `data.documents` in the parsed answer. -/
inductive DocField where
  /-- The field is `undefined`, or holds a falsy value (`null`, `false`, `0`, `""`). -/
  | falsy
  /-- The field holds an array of items (an array is truthy, also when empty). -/
  | items (l : List RawItem)
  /-- The field holds a truthy value that is no array and so has no `map`. -/
  | notArray
  deriving DecidableEq

/-- The body of the provider's answer, as `res.json()` sees it. -/
inductive Body where
  /-- The body cannot be read (its stream fails): `res.text()` and `res.json()`
  reject. -/
  | unreadable
  /-- The text is no JSON: `res.json()` rejects with a `SyntaxError`. -/
  | notJson
  /-- The text is the JSON `null`: reading a property of it is a `TypeError`. -/
  | jsonNull
  /-- Any other JSON value, with its two document fields (both `falsy` when the
  value is no object). -/
  | json (articles documents : DocField)
  deriving DecidableEq

/-- The provider's answer: `res.ok` holds for a status from 200 to 299. -/
structure Response where
  status : Nat
  body : Body
  deriving DecidableEq

/-- The property `res.ok`. -/
def Response.isOk (res : Response) : Bool :=
  decide (200 ≤ res.status) && decide (res.status ≤ 299)

/-- What `await fetch(url)` does: it throws (no answer came), or gives an answer. -/
inductive FetchOutcome where
  | rejected
  | resolved (res : Response)
  deriving DecidableEq

/-- The query parameters of the request to `https://api.gdeltproject.org/api/v2/doc/doc`. -/
structure SearchParams where
  query : JSString
  mode : String
  format : String
  maxrecords : String
  sort : String
  deriving DecidableEq

/-- An exception thrown on the way: what the `catch` of the handler receives. -/
inductive Fault where
  | network
  | bodyError
  | syntaxError
  | typeError
  deriving DecidableEq

/-- The call `await res.text()` in the log line of the non-success branch: the
text is only logged, a rejection is thrown on. -/
def readText (body : Body) : Except Fault Unit :=
  match body with
  | .unreadable => .error .bodyError
  | _ => .ok ()

/-- The object given to `new URLSearchParams` in `fetchFromGdelt`. -/
def gdeltParams (query : JSString) : SearchParams :=
  { query := query, mode := "ArtList", format := "json", maxrecords := "30", sort := "datedesc" }

/-- The expression `data.articles || data.documents || []`. -/
def pickDocuments (articles documents : DocField) : DocField :=
  match articles with
  | .falsy =>
    match documents with
    | .falsy => .items []
    | d => d
  | a => a

/-- The function `fetchFromGdelt` of the source; `provider` stands for the
network behind `fetch`, and an exception is an `Except.error`. -/
def fetchFromGdelt (provider : SearchParams → FetchOutcome) (query : JSString) :
    Except Fault (List Article) :=
  match provider (gdeltParams query) with
  | .rejected => .error .network
  | .resolved res =>
    if !res.isOk then
      match readText res.body with
      | .error e => .error e
      | .ok _ => .ok []
    else
      match res.body with
      | .unreadable => .error .bodyError
      | .notJson => .error .syntaxError
      | .jsonNull => .error .typeError
      | .json articles documents =>
        match pickDocuments articles documents with
        | .items l => .ok (l.map normalizeItem)
        | _ => .error .typeError

/-! ## The handler of `POST /api/fact-check-gdelt` -/

/-- The parsed request body; `text` is absent or a string. -/
structure RequestBody where
  text : Option JSString
  deriving DecidableEq

/-- The answer of the handler: the status and the fields of the JSON body. -/
structure HttpResponse where
  status : Nat
  ok : Bool
  error : Option String
  engine : Option String
  reliability : Option Verdict
  deriving DecidableEq

/-- The answer of the handler together with the queries it passed to
`fetchFromGdelt`, in order. -/
structure Handled where
  response : HttpResponse
  adapterCalls : List JSString
  deriving DecidableEq

/-- The method `text.trim()`: white space is removed at both ends. -/
def trim (text : JSString) : JSString :=
  ((text.dropWhile isSpace).reverse.dropWhile isSpace).reverse

/-- The test `!text || !text.trim()` on a string. -/
def isBlank (text : JSString) : Bool :=
  text.isEmpty || (trim text).isEmpty

/-- The answer `res.status(400).json({ ok: false, error: "text_required" })`. -/
def textRequired : HttpResponse :=
  { status := 400, ok := false, error := some "text_required", engine := none,
    reliability := none }

/-- The answer `res.status(500).json({ ok: false, error: "internal_error" })`. -/
def internalError : HttpResponse :=
  { status := 500, ok := false, error := some "internal_error", engine := none,
    reliability := none }

/-- The answer `res.json({ ok: true, engine: "gdelt-doc-v2", reliability })`. -/
def factChecked (reliability : Verdict) : HttpResponse :=
  { status := 200, ok := true, error := none, engine := some "gdelt-doc-v2",
    reliability := some reliability }

/-- The handler of `POST /api/fact-check-gdelt`; `body` is `req.body`. -/
def factCheckHandler (provider : SearchParams → FetchOutcome) (body : Option RequestBody) :
    Handled :=
  let text := (body.getD { text := none }).text
  match text with
  | none => { response := textRequired, adapterCalls := [] }
  | some text =>
    if isBlank text then { response := textRequired, adapterCalls := [] }
    else
      let query := (trim text).take 120
      match fetchFromGdelt provider query with
      | .ok articles =>
        { response := factChecked (buildReliability text articles), adapterCalls := [query] }
      | .error _ => { response := internalError, adapterCalls := [query] }

/-! ## Auxiliary definitions for the statements -/

/-- The distinct tokens of a text, as a finite set. -/
def tokenSet (text : JSString) : Finset JSString :=
  (tokenize text).toFinset

/-- The array `scored` of the source: the scored articles, sorted. -/
def scoredList (inputText : JSString) (articles : List Article) : List ScoredArticle :=
  sortBySim (articles.map (scoreArticle inputText))

instance : IsTotal ScoredArticle simGe := ⟨fun a b => le_total b.sim a.sim⟩

instance : IsTrans ScoredArticle simGe := ⟨fun _ _ _ hab hbc => le_trans hbc hab⟩

/-- A text of ten distinct tokens. -/
def tenTokens : JSString := utf16 "a b c d e f g h i j"

/-- Two articles: one that shares no token with `tenTokens`, then one that
shares seven tokens with it and has eight distinct tokens itself. -/
def twoArticles : List Article :=
  [mkArticle "x y" "z", mkArticle "a b c d e f g" "news"]

/-- Twelve articles: eleven that share no token with `cat eats fish`, then one
whose title is that text. -/
def twelveArticles : List Article :=
  List.replicate 11 (mkArticle "dog" "barks") ++ [mkArticle "cat eats fish" ""]

/-- The first candidate that is present, whatever it holds: the reading of
"first present wins" by the letter. -/
def firstPresent : List (Option JSString) → Option JSString
  | [] => none
  | some s :: _ => some s
  | none :: rest => firstPresent rest

/-- The first candidate that is present and not empty. -/
def firstTruthy : List (Option JSString) → Option JSString
  | [] => none
  | x :: rest => if truthy x then x else firstTruthy rest

/-- A raw item without any field. -/
def emptyItem : RawItem :=
  { title := none, semtag := none, seendesc := none, excerpt := none, url := none,
    shareurl := none, sourceurl := none, domain := none, source := none, seendate := none,
    date := none }

/-- A provider that gives the same answer to every request. -/
def constProvider (outcome : FetchOutcome) : SearchParams → FetchOutcome :=
  fun _ => outcome

/-- The request body `{ "text": text }`. -/
def textBody (text : JSString) : Option RequestBody :=
  some { text := some text }

/-- The `text` of a request body: `const { text } = req.body || {}`. -/
def bodyText (body : Option RequestBody) : Option JSString :=
  (body.getD { text := none }).text

/-- The query the handler sends for a text: `text.trim().slice(0, 120)`. -/
def queryOf (text : JSString) : JSString :=
  (trim text).take 120

/-- The five verdicts of the source: each score with its reason. -/
def verdictTable : List (Nat × String) :=
  [(25, "ไม่พบข่าวที่ใกล้เคียง"),
   (90, "พบข่าวที่มีเนื้อหาใกล้เคียงมากในฐานข่าวระดับโลก"),
   (70, "พบข่าวที่ใกล้เคียงระดับหนึ่ง"),
   (50, "พบข่าวที่เกี่ยวข้องห่าง ๆ"),
   (30, "ข่าวที่พบยังไม่ตรงสาระสำคัญของข้อความนี้")]

/-- Three articles: the first and the last score the same against `cat eats fish`
(one token of three), the middle one scores 0. -/
def tiedArticles : List Article :=
  [mkArticle "cat naps" "", mkArticle "dog" "barks", mkArticle "fish swims" ""]

/-- An answer of status 503 with a body that can be read (an error page, no
JSON). -/
def unavailable : Response :=
  { status := 503, body := .notJson }

/-- An answer of status 503 whose body cannot be read. -/
def unreadableAnswer : Response :=
  { status := 503, body := .unreadable }

/-- An answer of status 200 with an empty array in `articles` and a string in
`documents`. -/
def emptyArrayAnswer : Response :=
  { status := 200, body := .json (.items []) .notArray }

/-- An answer of status 200 whose body is no JSON. -/
def notJsonAnswer : Response :=
  { status := 200, body := .notJson }

/-- An answer of status 200 whose `articles` field holds a truthy value that is
no array. -/
def notArrayAnswer : Response :=
  { status := 200, body := .json .notArray .falsy }

/-- ASCII punctuation and symbols: `!` to `/`, `:` to `@`, `[` to the grave
accent, and the left brace to `~`. -/
def isAsciiPunct (c : Nat) : Bool :=
  (decide (0x21 ≤ c) && decide (c ≤ 0x2F)) || (decide (0x3A ≤ c) && decide (c ≤ 0x40)) ||
  (decide (0x5B ≤ c) && decide (c ≤ 0x60)) || (decide (0x7B ≤ c) && decide (c ≤ 0x7E))

/-! ## Lemmas on `tokenize` -/

/-- The pieces of `split(/\s+/)` on small texts: a leading and a trailing run of
white space each leave an empty piece. -/
theorem splitSpaces_examples :
    splitSpaces (utf16 " a  b ") = [[], utf16 "a", utf16 "b", []] ∧
    splitSpaces (utf16 " ") = [[], []] ∧
    splitSpaces (utf16 "") = [[]] ∧
    splitSpaces (utf16 "a\t\n b") = [utf16 "a", utf16 "b"] := by
  decide

theorem splitSpaces_ne_nil (l : JSString) : splitSpaces l ≠ [] := by
  induction l with
  | nil => simp [splitSpaces]
  | cons c cs ih =>
    unfold splitSpaces
    split
    · cases cs with
      | nil => simp
      | cons d ds =>
        simp only
        split
        · exact ih
        · simp
    · split <;> simp

theorem flatten_splitSpaces (l : JSString) :
    (splitSpaces l).flatten = l.filter fun c => !isSpace c := by
  induction l with
  | nil => simp [splitSpaces]
  | cons c cs ih =>
    unfold splitSpaces
    split
    · rename_i hc
      cases cs with
      | nil => simp [hc]
      | cons d ds =>
        simp only
        split
        · rw [ih]; simp [hc]
        · simp only [List.flatten_cons, List.nil_append]
          rw [ih]; simp [hc]
    · rename_i hc
      split
      · rename_i h; exact absurd h (splitSpaces_ne_nil cs)
      · rename_i w ws h
        rw [h] at ih
        simp only [List.flatten_cons, List.cons_append] at ih ⊢
        rw [ih]; simp [hc]

theorem flatten_filterBoolean (ps : List JSString) :
    (filterBoolean ps).flatten = ps.flatten := by
  induction ps with
  | nil => rfl
  | cons p ps ih =>
    unfold filterBoolean at ih ⊢
    cases p with
    | nil => simpa using ih
    | cons c cs => simp [List.filter_cons, ih]

theorem mem_filterBoolean {w : JSString} {ps : List JSString} :
    w ∈ filterBoolean ps ↔ w ∈ ps ∧ w ≠ [] := by
  simp [filterBoolean, List.mem_filter]

theorem isWordUnit_not_space {c : Nat} (h : isWordUnit c = true) : isSpace c = false := by
  simp only [isWordUnit, isThaiRange, isLatinLower, isLatinUpper, isDigit, Bool.or_eq_true,
    Bool.and_eq_true, decide_eq_true_eq] at h
  simp only [isSpace, Bool.or_eq_false_iff, Bool.and_eq_false_iff, decide_eq_false_iff_not,
    beq_eq_false_iff_ne, ne_eq]
  omega

theorem isWordUnit_not_punct {c : Nat} (h : isWordUnit c = true) : isAsciiPunct c = false := by
  simp only [isWordUnit, isThaiRange, isLatinLower, isLatinUpper, isDigit, Bool.or_eq_true,
    Bool.and_eq_true, decide_eq_true_eq] at h
  simp only [isAsciiPunct, Bool.or_eq_false_iff, Bool.and_eq_false_iff, decide_eq_false_iff_not]
  omega

theorem inClass_eq (c : Nat) : inClass c = (isWordUnit c || isSpace c) := rfl

theorem lowerUnit_not_upper {c d : Nat} (h : d ∈ lowerUnit c) : isLatinUpper d = false := by
  unfold lowerUnit at h
  split at h
  · rename_i hc
    simp only [List.mem_singleton] at h
    simp only [isLatinUpper, Bool.and_eq_true, decide_eq_true_eq] at hc
    simp only [isLatinUpper, Bool.and_eq_false_iff, decide_eq_false_iff_not]
    omega
  · rename_i hc
    split at h
    · simp only [List.mem_cons, List.mem_singleton, List.not_mem_nil, or_false] at h
      rcases h with h | h <;> subst h <;> decide
    · split at h
      · simp only [List.mem_singleton] at h
        subst h; decide
      · simp only [List.mem_singleton] at h
        subst h
        simpa using hc

theorem toLowerCase_not_upper {text : JSString} {d : Nat} (h : d ∈ toLowerCase text) :
    isLatinUpper d = false := by
  unfold toLowerCase at h
  obtain ⟨c, _, hd⟩ := List.mem_flatMap.mp h
  exact lowerUnit_not_upper hd

theorem filter_replaceNonWord (l : JSString) :
    (replaceNonWord l).filter (fun c => !isSpace c) = l.filter isWordUnit := by
  induction l with
  | nil => rfl
  | cons c cs ih =>
    unfold replaceNonWord at ih ⊢
    rw [List.map_cons, List.filter_cons, List.filter_cons, ih]
    by_cases hw : isWordUnit c = true
    · have hs := isWordUnit_not_space hw
      simp [inClass_eq, hw, hs]
    · have hw' : isWordUnit c = false := by simpa using hw
      by_cases hs : isSpace c = true
      · simp [inClass_eq, hw', hs]
      · have hs' : isSpace c = false := by simpa using hs
        have h20 : isSpace 0x20 = true := by decide
        simp [inClass_eq, hw', hs', h20]

/-- Concatenating the tokens gives the word units of the lower-cased text. -/
theorem flatten_tokenize (text : JSString) :
    (tokenize text).flatten = (toLowerCase text).filter isWordUnit := by
  unfold tokenize
  rw [flatten_filterBoolean, flatten_splitSpaces, filter_replaceNonWord]

theorem mem_token {text t : JSString} {c : Nat} (ht : t ∈ tokenize text) (hc : c ∈ t) :
    c ∈ toLowerCase text ∧ isWordUnit c = true := by
  have h : c ∈ (tokenize text).flatten := List.mem_flatten.mpr ⟨t, ht, hc⟩
  rw [flatten_tokenize] at h
  simpa [List.mem_filter] using h

/-- The first piece of a split is a prefix of the text (empty when the text
starts with white space), and the other pieces occur in the text. -/
theorem splitSpaces_pieces (l : JSString) :
    ∃ w ws, splitSpaces l = w :: ws ∧ w <+: l ∧ (∀ v ∈ ws, v <:+: l) ∧
      ∀ d ds, l = d :: ds → isSpace d = true → w = [] := by
  induction l with
  | nil => exact ⟨[], [], rfl, List.nil_prefix, by simp, by simp⟩
  | cons c cs ih =>
    obtain ⟨w, ws, hs, hpre, hinf, hsp⟩ := ih
    unfold splitSpaces
    split
    · cases cs with
      | nil => exact ⟨[], [[]], rfl, List.nil_prefix, by simp, by simp⟩
      | cons d ds =>
        simp only
        split
        · rename_i hd
          have hw : w = [] := hsp d ds rfl hd
          subst hw
          exact ⟨[], ws, hs, List.nil_prefix, fun v hv => List.infix_cons (hinf v hv),
            fun _ _ _ _ => rfl⟩
        · refine ⟨[], splitSpaces (d :: ds), rfl, List.nil_prefix, ?_, fun _ _ _ _ => rfl⟩
          intro v hv
          rw [hs] at hv
          rcases List.mem_cons.mp hv with h | h
          · exact List.infix_cons (h ▸ hpre.isInfix)
          · exact List.infix_cons (hinf v h)
    · rename_i hc
      rw [hs]
      refine ⟨c :: w, ws, rfl, (List.prefix_cons_inj c).mpr hpre,
        fun v hv => List.infix_cons (hinf v hv), ?_⟩
      intro d ds hl hd
      injection hl with h1 _
      rw [h1] at hc
      exact absurd hd hc

theorem splitSpaces_occurs {l w : JSString} (h : w ∈ splitSpaces l) : w <:+: l := by
  obtain ⟨v, vs, hs, hpre, hinf, _⟩ := splitSpaces_pieces l
  rw [hs] at h
  rcases List.mem_cons.mp h with h | h
  · exact h ▸ hpre.isInfix
  · exact hinf w h

theorem map_replace_eq_self {l : JSString}
    (h : ∀ c ∈ l.map (fun c => if inClass c = true then c else 0x20), isWordUnit c = true) :
    l.map (fun c => if inClass c = true then c else 0x20) = l := by
  induction l with
  | nil => rfl
  | cons d ds ih =>
    rw [List.map_cons] at h ⊢
    have hd := h _ (List.mem_cons_self _ _)
    have ht := ih fun c hc => h c (List.mem_cons_of_mem _ hc)
    rw [ht]
    by_cases hcl : inClass d = true
    · simp [hcl]
    · rw [if_neg hcl] at hd
      exact absurd hd (by decide)

/-- A piece of the filtered text that holds word units only occurs in the
text as it is. -/
theorem occurs_of_replaceNonWord {l t : JSString} (ht : t <:+: replaceNonWord l)
    (hw : ∀ c ∈ t, isWordUnit c = true) : t <:+: l := by
  obtain ⟨s, u, hsu⟩ := ht
  unfold replaceNonWord at hsu
  obtain ⟨l1, l2, hl, h1, _⟩ := List.map_eq_append_iff.mp hsu.symm
  obtain ⟨l11, l12, hl1, _, h12⟩ := List.map_eq_append_iff.mp h1
  have h12' : l12 = t := by
    rw [← h12]
    exact (map_replace_eq_self (by rw [h12]; exact hw)).symm
  exact ⟨l11, l2, by rw [hl, hl1, h12']⟩

theorem token_ne_nil {text t : JSString} (ht : t ∈ tokenize text) : t ≠ [] :=
  (mem_filterBoolean.mp ht).2

/-- Every token occurs, as it is, in the lower-cased text. -/
theorem token_occurs {text t : JSString} (ht : t ∈ tokenize text) : t <:+: toLowerCase text := by
  have hp : t ∈ splitSpaces (replaceNonWord (toLowerCase text)) := (mem_filterBoolean.mp ht).1
  exact occurs_of_replaceNonWord (splitSpaces_occurs hp) fun c hc => (mem_token ht hc).2

theorem tokenize_eq_nil_of_no_word {text : JSString}
    (h : ∀ c ∈ toLowerCase text, isWordUnit c = false) : tokenize text = [] := by
  apply List.eq_nil_iff_forall_not_mem.mpr
  intro t ht
  have hne := token_ne_nil ht
  obtain ⟨c, hc⟩ := List.exists_mem_of_ne_nil t hne
  have := mem_token ht hc
  rw [h c this.1] at this
  exact Bool.false_ne_true this.2

theorem lowerUnit_of_plain {c : Nat}
    (h : isWordUnit c = false ∧ c ≠ 0x0130 ∧ c ≠ 0x212A) : lowerUnit c = [c] := by
  obtain ⟨hw, h1, h2⟩ := h
  have hu : isLatinUpper c = false := by
    simp only [isWordUnit, Bool.or_eq_false_iff] at hw
    exact hw.1.2
  simp [lowerUnit, hu, h1, h2]

/-- A text without word units, without U+0130 and without U+212A has no token. -/
theorem tokenize_eq_nil_of_plain {text : JSString}
    (h : ∀ c ∈ text, isWordUnit c = false ∧ c ≠ 0x0130 ∧ c ≠ 0x212A) : tokenize text = [] := by
  apply tokenize_eq_nil_of_no_word
  intro c hc
  unfold toLowerCase at hc
  obtain ⟨d, hd, hcd⟩ := List.mem_flatMap.mp hc
  rw [lowerUnit_of_plain (h d hd), List.mem_singleton] at hcd
  rw [hcd]
  exact (h d hd).1

theorem isAsciiPunct_plain {c : Nat} (h : isAsciiPunct c = true) :
    isWordUnit c = false ∧ c ≠ 0x0130 ∧ c ≠ 0x212A := by
  simp only [isAsciiPunct, Bool.or_eq_true, Bool.and_eq_true, decide_eq_true_eq] at h
  simp only [isWordUnit, isThaiRange, isLatinLower, isLatinUpper, isDigit, Bool.or_eq_false_iff,
    Bool.and_eq_false_iff, decide_eq_false_iff_not]
  omega

/-! ## Lemmas on `similarity` -/

theorem mem_foldl_setAdd (l acc : List JSString) (t : JSString) :
    t ∈ l.foldl setAdd acc ↔ t ∈ acc ∨ t ∈ l := by
  induction l generalizing acc with
  | nil => simp
  | cons x xs ih =>
    rw [List.foldl_cons, ih]
    unfold setAdd
    split
    · rename_i hx
      constructor
      · rintro (h | h)
        · exact Or.inl h
        · exact Or.inr (List.mem_cons_of_mem _ h)
      · rintro (h | h)
        · exact Or.inl h
        · rcases List.mem_cons.mp h with h | h
          · exact Or.inl (h ▸ hx)
          · exact Or.inr h
    · simp only [List.mem_append, List.mem_singleton, List.mem_cons]
      tauto

theorem nodup_foldl_setAdd (l acc : List JSString) (h : acc.Nodup) :
    (l.foldl setAdd acc).Nodup := by
  induction l generalizing acc with
  | nil => simpa using h
  | cons x xs ih =>
    rw [List.foldl_cons]
    apply ih
    unfold setAdd
    split
    · exact h
    · rename_i hx
      rw [List.nodup_append]
      refine ⟨h, List.nodup_singleton x, ?_⟩
      intro a ha hb
      rw [List.mem_singleton] at hb
      exact hx (hb ▸ ha)

theorem mem_newSet {l : List JSString} {t : JSString} : t ∈ newSet l ↔ t ∈ l := by
  unfold newSet
  rw [mem_foldl_setAdd]
  simp

theorem nodup_newSet (l : List JSString) : (newSet l).Nodup :=
  nodup_foldl_setAdd l [] List.nodup_nil

theorem toFinset_newSet (l : List JSString) : (newSet l).toFinset = l.toFinset := by
  ext t
  simp [mem_newSet]

theorem length_newSet (l : List JSString) : (newSet l).length = l.toFinset.card := by
  rw [← toFinset_newSet, List.toFinset_card_of_nodup (nodup_newSet l)]

theorem foldl_count (tb : List JSString) (ta : List JSString) (n : Nat) :
    ta.foldl (fun inter t => if t ∈ tb then inter + 1 else inter) n =
      n + (ta.filter fun t => decide (t ∈ tb)).length := by
  induction ta generalizing n with
  | nil => simp
  | cons x xs ih =>
    rw [List.foldl_cons, ih, List.filter_cons]
    by_cases hx : x ∈ tb
    · simp [hx]; omega
    · simp [hx]

theorem countInter_newSet (la lb : List JSString) :
    countInter (newSet la) (newSet lb) = (la.toFinset ∩ lb.toFinset).card := by
  unfold countInter
  rw [foldl_count, Nat.zero_add,
    ← List.toFinset_card_of_nodup ((nodup_newSet la).filter _)]
  congr 1
  ext t
  simp [mem_newSet]

/-- The value of `similarity` in terms of the two token sets; the quotient by
zero is zero, which covers the early return. -/
theorem similarity_eq_div (a b : JSString) :
    similarity a b =
      (((tokenSet a ∩ tokenSet b).card : Nat) : ℚ) /
        ((max (tokenSet a).card (tokenSet b).card : Nat) : ℚ) := by
  unfold similarity tokenSet
  simp only [length_newSet, countInter_newSet]
  split
  · rename_i h
    have h0 : ((tokenize a).toFinset ∩ (tokenize b).toFinset).card = 0 := by
      rcases h with h | h
      · rw [Finset.card_eq_zero] at h ⊢
        rw [h, Finset.empty_inter]
      · rw [Finset.card_eq_zero] at h ⊢
        rw [h, Finset.inter_empty]
    rw [h0]; simp
  · rfl

theorem similarity_comm (a b : JSString) : similarity a b = similarity b a := by
  rw [similarity_eq_div, similarity_eq_div, Finset.inter_comm, max_comm]

theorem similarity_nonneg (a b : JSString) : 0 ≤ similarity a b := by
  rw [similarity_eq_div]
  positivity

theorem similarity_le_one (a b : JSString) : similarity a b ≤ 1 := by
  rw [similarity_eq_div]
  apply div_le_one_of_le₀
  · have h1 : (tokenSet a ∩ tokenSet b).card ≤ (tokenSet a).card :=
      Finset.card_le_card Finset.inter_subset_left
    have h2 : (tokenSet a).card ≤ max (tokenSet a).card (tokenSet b).card := le_max_left _ _
    exact_mod_cast h1.trans h2
  · positivity

/-! ## Lemmas on `buildReliability` -/

theorem scoredList_perm (text : JSString) (articles : List Article) :
    (scoredList text articles).Perm (articles.map (scoreArticle text)) :=
  List.perm_insertionSort simGe _

theorem scoredList_sorted (text : JSString) (articles : List Article) :
    (scoredList text articles).Sorted simGe :=
  List.sorted_insertionSort simGe _

theorem scoredList_length (text : JSString) (articles : List Article) :
    (scoredList text articles).length = articles.length := by
  rw [(scoredList_perm text articles).length_eq, List.length_map]

theorem head_eq_of_eq_cons {α : Type} {l : List α} {x : α} {xs : List α} (h : l ≠ [])
    (e : l = x :: xs) : l.head h = x := by
  subst e
  rfl

/-- The verdict of a non-empty article list, in terms of the sorted array. -/
theorem buildReliability_of_ne_nil (text : JSString) (articles : List Article)
    (h : articles ≠ []) :
    ∃ top rest, scoredList text articles = top :: rest ∧
      buildReliability text articles =
        { score := (ladder top.sim).1, reason := (ladder top.sim).2, topMatch := some top,
          topMatches := (top :: rest).take 10 } := by
  cases articles with
  | nil => exact absurd rfl h
  | cons first others =>
    have hlen := scoredList_length text (first :: others)
    cases hs : scoredList text (first :: others) with
    | nil => rw [hs] at hlen; simp at hlen
    | cons top rest =>
      refine ⟨top, rest, rfl, ?_⟩
      have hs' : sortBySim ((first :: others).map (scoreArticle text)) = top :: rest := hs
      simp only [buildReliability]
      rw [head_eq_of_eq_cons _ hs']
      simp only [hs']

theorem buildReliability_nil (text : JSString) :
    buildReliability text [] =
      { score := 25, reason := "ไม่พบข่าวที่ใกล้เคียง", topMatch := none, topMatches := [] } :=
  rfl

theorem ladder_score (m : ℚ) :
    (ladder m).1 = if m > 0.7 then 90 else if m > 0.45 then 70
      else if m > 0.25 then 50 else 30 := by
  unfold ladder
  split_ifs <;> rfl

theorem sim_scoreArticle (text : JSString) (a : Article) :
    (scoreArticle text a).sim = similarity text (baseText a) := rfl

/-- The head of the sorted array carries the largest similarity. -/
theorem head_scoredList_max {text : JSString} {articles : List Article} {top : ScoredArticle}
    {rest : List ScoredArticle} (hs : scoredList text articles = top :: rest) :
    top ∈ articles.map (scoreArticle text) ∧
      ∀ a ∈ articles, similarity text (baseText a) ≤ top.sim := by
  have hperm := scoredList_perm text articles
  have hsorted := scoredList_sorted text articles
  rw [hs] at hperm hsorted
  refine ⟨hperm.subset (List.mem_cons_self _ _), ?_⟩
  intro a ha
  have hmem : scoreArticle text a ∈ top :: rest :=
    hperm.symm.subset (List.mem_map_of_mem _ ha)
  rcases List.mem_cons.mp hmem with h | h
  · rw [← sim_scoreArticle, h]
  · exact List.rel_of_sorted_cons hsorted _ h

theorem similarity_eq_zero_left {a : JSString} (b : JSString) (h : tokenize a = []) :
    similarity a b = 0 := by
  rw [similarity_eq_div]
  simp [tokenSet, h]

theorem similarity_self {a : JSString} (h : tokenize a ≠ []) : similarity a a = 1 := by
  rw [similarity_eq_div, Finset.inter_self, max_self]
  apply div_self
  have hne : tokenSet a ≠ ∅ := by
    unfold tokenSet
    rwa [ne_eq, List.toFinset_eq_empty_iff]
  exact_mod_cast Finset.card_ne_zero.mpr (Finset.nonempty_iff_ne_empty.mpr hne)

/-- The text an article is compared by: title, a space, description. -/
theorem baseText_eq (a : Article) : baseText a = a.title ++ [0x20] ++ a.description := by
  unfold baseText strOr
  cases h : a.description <;> simp

theorem topMatches_eq (text : JSString) (articles : List Article) :
    (buildReliability text articles).topMatches = (scoredList text articles).take 10 := by
  by_cases h : articles = []
  · subst h
    rfl
  · obtain ⟨top, rest, hs, hv⟩ := buildReliability_of_ne_nil text articles h
    rw [hv, hs]

theorem mem_scoredList {text : JSString} {articles : List Article} {s : ScoredArticle} :
    s ∈ scoredList text articles ↔ ∃ a ∈ articles, scoreArticle text a = s := by
  rw [(scoredList_perm text articles).mem_iff, List.mem_map]

theorem topMatch_mem {text : JSString} {articles : List Article} {t : ScoredArticle}
    (h : (buildReliability text articles).topMatch = some t) : t ∈ scoredList text articles := by
  by_cases hn : articles = []
  · subst hn
    rw [buildReliability_nil] at h
    exact absurd h (by simp)
  · obtain ⟨top, rest, hs, hv⟩ := buildReliability_of_ne_nil text articles hn
    rw [hv] at h
    simp only [Option.some.injEq] at h
    rw [hs, ← h]
    exact List.mem_cons_self _ _

theorem sim_mem_unit {text : JSString} {articles : List Article} {s : ScoredArticle}
    (h : s ∈ scoredList text articles) : 0 ≤ s.sim ∧ s.sim ≤ 1 := by
  obtain ⟨a, _, rfl⟩ := mem_scoredList.mp h
  exact ⟨similarity_nonneg _ _, similarity_le_one _ _⟩

/-! ## The reliability score (C1, C3, C4) -/

/-- C1: for a non-empty article list there is an article `top` of the list
whose similarity to the input, taken on title, a space and description, is the
largest one (`topSim`), and the score is 90 if `topSim > 0.7`, else 70 if
`topSim > 0.45`, else 50 if `topSim > 0.25`, else 30.  The comparisons are
strict: `topSim` equal to 0.7, 0.45 or 0.25 gives 70, 50 and 30. -/
theorem buildReliability_score_ladder (text : JSString) (articles : List Article)
    (h : articles ≠ []) :
    ∃ top ∈ articles, ∃ topSim : ℚ,
      topSim = similarity text (top.title ++ [0x20] ++ top.description) ∧
      (∀ a ∈ articles, similarity text (a.title ++ [0x20] ++ a.description) ≤ topSim) ∧
      ((buildReliability text articles).score =
        if topSim > 0.7 then 90 else if topSim > 0.45 then 70
        else if topSim > 0.25 then 50 else 30) ∧
      (topSim = 0.7 → (buildReliability text articles).score = 70) ∧
      (topSim = 0.45 → (buildReliability text articles).score = 50) ∧
      (topSim = 0.25 → (buildReliability text articles).score = 30) := by
  obtain ⟨top, rest, hs, hv⟩ := buildReliability_of_ne_nil text articles h
  obtain ⟨hmem, hmax⟩ := head_scoredList_max hs
  obtain ⟨a, ha, rfl⟩ := List.mem_map.mp hmem
  have hscore : (buildReliability text articles).score =
      if similarity text (baseText a) > 0.7 then 90
      else if similarity text (baseText a) > 0.45 then 70
      else if similarity text (baseText a) > 0.25 then 50 else 30 := by
    rw [hv]
    exact ladder_score _
  refine ⟨a, ha, similarity text (baseText a), by rw [baseText_eq], ?_, hscore, ?_, ?_, ?_⟩
  · intro b hb
    rw [← baseText_eq]
    exact hmax b hb
  · intro e
    rw [hscore, e]
    norm_num
  · intro e
    rw [hscore, e]
    norm_num
  · intro e
    rw [hscore, e]
    norm_num

/-- C1, at an article list whose best similarity is exactly 0.7: seven of the
ten tokens of the input are in the second title, and the score is 70. -/
theorem buildReliability_score_ladder_witness :
    similarity tenTokens (baseText (mkArticle "a b c d e f g" "news")) = 0.7 ∧
    (buildReliability tenTokens twoArticles).score = 70 ∧
    ∃ top ∈ twoArticles, ∃ topSim : ℚ,
      topSim = similarity tenTokens (top.title ++ [0x20] ++ top.description) ∧
      (∀ a ∈ twoArticles, similarity tenTokens (a.title ++ [0x20] ++ a.description) ≤ topSim) ∧
      ((buildReliability tenTokens twoArticles).score =
        if topSim > 0.7 then 90 else if topSim > 0.45 then 70
        else if topSim > 0.25 then 50 else 30) ∧
      (topSim = 0.7 → (buildReliability tenTokens twoArticles).score = 70) ∧
      (topSim = 0.45 → (buildReliability tenTokens twoArticles).score = 50) ∧
      (topSim = 0.25 → (buildReliability tenTokens twoArticles).score = 30) :=
  ⟨by decide!, by decide!, buildReliability_score_ladder tenTokens twoArticles (List.cons_ne_nil _ _)⟩

/-- C3: on the empty article list the verdict has score 25, no match and no
`topMatch`, whatever the input text. -/
theorem buildReliability_empty (text : JSString) :
    (buildReliability text []).score = 25 ∧
    (buildReliability text []).topMatches = [] ∧
    (buildReliability text []).topMatch = none :=
  ⟨rfl, rfl, rfl⟩

/-- C4: the score of every verdict is one of 25, 30, 50, 70, 90. -/
theorem buildReliability_score_mem (text : JSString) (articles : List Article) :
    (buildReliability text articles).score ∈ [25, 30, 50, 70, 90] := by
  by_cases h : articles = []
  · subst h
    rw [buildReliability_nil]
    decide
  · obtain ⟨top, rest, _, hv⟩ := buildReliability_of_ne_nil text articles h
    rw [hv]
    show (ladder top.sim).1 ∈ [25, 30, 50, 70, 90]
    rw [ladder_score]
    split_ifs <;> decide

/-! ## The matches (C5, C6) -/

/-- C5: for a list of `n` articles the matches are `min 10 n` scored articles
of the input, and their similarities never increase from first to last. -/
theorem buildReliability_matches (text : JSString) (articles : List Article) :
    (buildReliability text articles).topMatches.length = min 10 articles.length ∧
    (buildReliability text articles).topMatches.Pairwise (fun x y => y.sim ≤ x.sim) ∧
    ∀ s ∈ (buildReliability text articles).topMatches,
      ∃ a ∈ articles, s.toArticle = a ∧ s.sim = similarity text (baseText a) := by
  rw [topMatches_eq]
  refine ⟨?_, ?_, ?_⟩
  · rw [List.length_take, scoredList_length]
  · exact (scoredList_sorted text articles).sublist (List.take_sublist _ _)
  · intro s hs
    obtain ⟨a, ha, rfl⟩ := mem_scoredList.mp (List.mem_of_mem_take hs)
    exact ⟨a, ha, rfl, rfl⟩

/-- C6: for a non-empty article list, `topMatch` is the first of the matches,
it is a scored article of the input whose similarity is at least that of every
input article, and the matches are the best scored articles: the scored
articles split into the matches and a rest, and nothing in the rest has a
larger similarity than a match. -/
theorem buildReliability_topMatch (text : JSString) (articles : List Article)
    (h : articles ≠ []) :
    ∃ top, (buildReliability text articles).topMatch = some top ∧
      (buildReliability text articles).topMatches.head? = some top ∧
      (∃ a ∈ articles, top.toArticle = a ∧ top.sim = similarity text (baseText a)) ∧
      (∀ a ∈ articles, similarity text (baseText a) ≤ top.sim) ∧
      ∃ rest, ((buildReliability text articles).topMatches ++ rest).Perm
          (articles.map (scoreArticle text)) ∧
        ∀ x ∈ rest, ∀ y ∈ (buildReliability text articles).topMatches, x.sim ≤ y.sim := by
  obtain ⟨top, tl, hs, hv⟩ := buildReliability_of_ne_nil text articles h
  obtain ⟨hmem, hmax⟩ := head_scoredList_max hs
  refine ⟨top, by rw [hv], by rw [hv]; rfl, ?_, hmax, (scoredList text articles).drop 10, ?_, ?_⟩
  · obtain ⟨a, ha, rfl⟩ := List.mem_map.mp hmem
    exact ⟨a, ha, rfl, rfl⟩
  · rw [topMatches_eq, List.take_append_drop]
    exact scoredList_perm text articles
  · intro x hx y hy
    rw [topMatches_eq] at hy
    exact (scoredList_sorted text articles).rel_of_mem_take_of_mem_drop hy hx

/-- C6, at twelve articles of which the last one matches best: it comes first,
and the two articles left out have similarity 0. -/
theorem buildReliability_topMatch_witness :
    ((buildReliability (utf16 "cat eats fish") twelveArticles).topMatch.map fun t => (t.title, t.sim))
      = some (utf16 "cat eats fish", 1) ∧
    ∃ top, (buildReliability (utf16 "cat eats fish") twelveArticles).topMatch = some top ∧
      (buildReliability (utf16 "cat eats fish") twelveArticles).topMatches.head? = some top ∧
      (∃ a ∈ twelveArticles,
        top.toArticle = a ∧ top.sim = similarity (utf16 "cat eats fish") (baseText a)) ∧
      (∀ a ∈ twelveArticles, similarity (utf16 "cat eats fish") (baseText a) ≤ top.sim) ∧
      ∃ rest, ((buildReliability (utf16 "cat eats fish") twelveArticles).topMatches ++ rest).Perm
          (twelveArticles.map (scoreArticle (utf16 "cat eats fish"))) ∧
        ∀ x ∈ rest, ∀ y ∈ (buildReliability (utf16 "cat eats fish") twelveArticles).topMatches,
          x.sim ≤ y.sim :=
  ⟨by decide!, buildReliability_topMatch (utf16 "cat eats fish") twelveArticles (by decide)⟩

/-! ## The similarity (C2, C7, C8, C9) -/

/-- C2: with `SA` and `SB` the sets of distinct tokens of the two texts,
`similarity` is 0 when one of them is empty and `|SA ∩ SB| / max |SA| |SB|`
otherwise; it depends on the texts through these sets only, so neither
duplicates nor the order of the tokens matter; and a text made of ASCII
punctuation only has similarity 0 with every text. -/
theorem similarity_overlap (a b : JSString) :
    (similarity a b =
      if tokenSet a = ∅ ∨ tokenSet b = ∅ then 0
      else (((tokenSet a ∩ tokenSet b).card : Nat) : ℚ) /
        ((max (tokenSet a).card (tokenSet b).card : Nat) : ℚ)) ∧
    (∀ a2 b2, tokenSet a2 = tokenSet a → tokenSet b2 = tokenSet b →
      similarity a2 b2 = similarity a b) ∧
    ((∀ c ∈ a, isAsciiPunct c = true) → similarity a b = 0 ∧ similarity b a = 0) := by
  refine ⟨?_, ?_, ?_⟩
  · split
    · rename_i h
      rw [similarity_eq_div]
      rcases h with h | h <;> simp [h]
    · exact similarity_eq_div a b
  · intro a2 b2 ha hb
    rw [similarity_eq_div, similarity_eq_div, ha, hb]
  · intro hp
    have ht : tokenize a = [] := tokenize_eq_nil_of_plain fun c hc => isAsciiPunct_plain (hp c hc)
    exact ⟨similarity_eq_zero_left b ht, by rw [similarity_comm]; exact similarity_eq_zero_left b ht⟩

/-- C7: `similarity` is symmetric. -/
theorem similarity_symmetric (a b : JSString) : similarity a b = similarity b a :=
  similarity_comm a b

/-- C8: a text with at least one token has similarity 1 with itself. -/
theorem similarity_self_eq_one (a : JSString) (h : tokenize a ≠ []) : similarity a a = 1 :=
  similarity_self h

/-- C8, at the text `Hello, World! 123`. -/
theorem similarity_self_eq_one_witness :
    tokenize (utf16 "Hello, World! 123") ≠ [] ∧
    similarity (utf16 "Hello, World! 123") (utf16 "Hello, World! 123") = 1 :=
  ⟨by decide, similarity_self_eq_one (utf16 "Hello, World! 123") (by decide)⟩

/-- C9: `similarity` takes its values between 0 and 1, and so does the
similarity of every match and of `topMatch`. -/
theorem similarity_unit_interval (a b text : JSString) (articles : List Article) :
    (0 ≤ similarity a b ∧ similarity a b ≤ 1) ∧
    (∀ s ∈ (buildReliability text articles).topMatches, 0 ≤ s.sim ∧ s.sim ≤ 1) ∧
    (∀ t, (buildReliability text articles).topMatch = some t → 0 ≤ t.sim ∧ t.sim ≤ 1) := by
  refine ⟨⟨similarity_nonneg a b, similarity_le_one a b⟩, ?_, ?_⟩
  · intro s hs
    rw [topMatches_eq] at hs
    exact sim_mem_unit (List.mem_of_mem_take hs)
  · intro t ht
    exact sim_mem_unit (topMatch_mem ht)

/-! ## The tokens (C10) -/

/-- C10: every token is non-empty and is made of units of `ก-ฮ`, `a-z` and
`0-9` only, so it holds no white space, no punctuation and no upper-case
letter; every token occurs as it is in the lower-cased text, and the tokens,
put end to end, are the word units of the lower-cased text in their order;
the empty text, and every text without such a unit (and without the two
letters U+0130 and U+212A, which lower-case to `i` and `k`), has no token; and `Hello, World! 123` gives `hello`, `world`, `123`. -/
theorem tokenize_tokens (text : JSString) :
    (∀ t ∈ tokenize text, t ≠ [] ∧ t <:+: toLowerCase text ∧ ∀ c ∈ t,
      (isThaiRange c = true ∨ isLatinLower c = true ∨ isDigit c = true) ∧
      isSpace c = false ∧ isAsciiPunct c = false ∧ isLatinUpper c = false) ∧
    (tokenize text).flatten = (toLowerCase text).filter isWordUnit ∧
    tokenize [] = [] ∧
    ((∀ c ∈ text, isWordUnit c = false ∧ c ≠ 0x0130 ∧ c ≠ 0x212A) → tokenize text = []) ∧
    tokenize (utf16 "Hello, World! 123") = [utf16 "hello", utf16 "world", utf16 "123"] := by
  refine ⟨?_, flatten_tokenize text, rfl, tokenize_eq_nil_of_plain, by decide⟩
  intro t ht
  refine ⟨token_ne_nil ht, token_occurs ht, ?_⟩
  intro c hc
  obtain ⟨hl, hw⟩ := mem_token ht hc
  have hu := toLowerCase_not_upper hl
  refine ⟨?_, isWordUnit_not_space hw, isWordUnit_not_punct hw, hu⟩
  simp only [isWordUnit, Bool.or_eq_true, hu, or_false, Bool.false_eq_true] at hw
  tauto

/-! ## Thai script (C11) -/

/-- C11, the code at `แมวกินปลา`: the range `ก-ฮ` ends at U+0E2E, so the vowel
signs U+0E41, U+0E34 and U+0E32 of the text are outside the class, each becomes
a space, and the text gives two tokens, `มวก` and `นปล`, instead of itself. -/
theorem tokenize_thai_vowels_dropped :
    isThaiRange 0x0E41 = false ∧ isThaiRange 0x0E34 = false ∧ isThaiRange 0x0E32 = false ∧
    tokenize (utf16 "แมวกินปลา") = [utf16 "มวก", utf16 "นปล"] ∧
    tokenize (utf16 "แมวกินปลา") ≠ [utf16 "แมวกินปลา"] := by
  decide

/-! ## Normalization of a raw item (C12) -/

theorem jsOrStr_jsOr (x y : Option JSString) (d : JSString) :
    jsOrStr (jsOr x y) d = (firstTruthy [x, y]).getD d := by
  rcases x with _ | _ | ⟨c, cs⟩ <;> rcases y with _ | _ | ⟨e, es⟩ <;>
    simp [jsOrStr, jsOr, firstTruthy, truthy]

theorem jsOrStr_jsOr_jsOr (x y z : Option JSString) (d : JSString) :
    jsOrStr (jsOr (jsOr x y) z) d = (firstTruthy [x, y, z]).getD d := by
  rcases x with _ | _ | ⟨c, cs⟩ <;> rcases y with _ | _ | ⟨e, es⟩ <;>
    rcases z with _ | _ | ⟨f, fs⟩ <;> simp [jsOrStr, jsOr, firstTruthy, truthy]

theorem jsOr_jsOr_none (x y : Option JSString) :
    jsOr (jsOr x y) none = firstTruthy [x, y] := by
  rcases x with _ | _ | ⟨c, cs⟩ <;> rcases y with _ | _ | ⟨e, es⟩ <;>
    simp [jsOr, firstTruthy, truthy]

/-- C12, as it stands, fails: with an empty `title` and a `semtag`, the first
candidate that is present is the empty `title`, and the article gets the
`semtag`. -/
theorem normalizeItem_skips_empty :
    firstPresent [some [], some (utf16 "tag")] = some [] ∧
    (normalizeItem { emptyItem with title := some [], semtag := some (utf16 "tag") }).title
      = utf16 "tag" ∧
    (normalizeItem { emptyItem with title := some [], semtag := some (utf16 "tag") }).title
      ≠ (firstPresent [some [], some (utf16 "tag")]).getD [] := by
  decide

/-- C12, amended: each attribute of the article is the first candidate that is
present and not empty, in the orders `title`, `semtag`; `seendesc`, `excerpt`;
`url`, `shareurl`, `sourceurl`; `domain`, `source`; `seendate`, `date`; without
such a candidate it is the empty string for title, description and url, the label
`GDELT` for the source and `null` for `publishedAt`. -/
theorem normalizeItem_first_truthy (a : RawItem) :
    (normalizeItem a).title = (firstTruthy [a.title, a.semtag]).getD [] ∧
    (normalizeItem a).description = (firstTruthy [a.seendesc, a.excerpt]).getD [] ∧
    (normalizeItem a).url = (firstTruthy [a.url, a.shareurl, a.sourceurl]).getD [] ∧
    (normalizeItem a).source = (firstTruthy [a.domain, a.source]).getD (utf16 "GDELT") ∧
    (normalizeItem a).publishedAt = firstTruthy [a.seendate, a.date] :=
  ⟨jsOrStr_jsOr _ _ _, jsOrStr_jsOr _ _ _, jsOrStr_jsOr_jsOr _ _ _ _, jsOrStr_jsOr _ _ _,
    jsOr_jsOr_none _ _⟩

/-! ## The adapter and the handler (C13, C14, C19) -/

theorem isBlank_iff (text : JSString) : isBlank text = true ↔ trim text = [] := by
  unfold isBlank
  cases text with
  | nil => simp [trim]
  | cons c cs => simp [List.isEmpty_iff]

theorem factCheckHandler_blank (provider : SearchParams → FetchOutcome)
    (body : Option RequestBody)
    (h : bodyText body = none ∨ ∃ t, bodyText body = some t ∧ trim t = []) :
    factCheckHandler provider body = { response := textRequired, adapterCalls := [] } := by
  unfold factCheckHandler
  unfold bodyText at h
  rcases h with h | ⟨t, h, ht⟩
  · simp only [h]
  · simp only [h, (isBlank_iff t).mpr ht, if_true]

theorem factCheckHandler_text (provider : SearchParams → FetchOutcome)
    (body : Option RequestBody) (t : JSString) (h : bodyText body = some t)
    (ht : trim t ≠ []) :
    factCheckHandler provider body =
      match fetchFromGdelt provider (queryOf t) with
      | .ok articles =>
        { response := factChecked (buildReliability t articles), adapterCalls := [queryOf t] }
      | .error _ => { response := internalError, adapterCalls := [queryOf t] } := by
  have hb : isBlank t = false := by
    cases hb : isBlank t with
    | false => rfl
    | true => exact absurd ((isBlank_iff t).mp hb) ht
  unfold factCheckHandler
  unfold bodyText at h
  simp only [h, hb]
  rfl

theorem bodyText_textBody (text : JSString) : bodyText (textBody text) = some text := rfl

/-- The answer of the handler when `fetchFromGdelt` returns articles. -/
theorem factCheckHandler_of_ok {provider : SearchParams → FetchOutcome}
    {body : Option RequestBody} {t : JSString} {articles : List Article}
    (h : bodyText body = some t) (ht : trim t ≠ [])
    (hf : fetchFromGdelt provider (queryOf t) = .ok articles) :
    factCheckHandler provider body =
      { response := factChecked (buildReliability t articles), adapterCalls := [queryOf t] } := by
  rw [factCheckHandler_text provider body t h ht, hf]

/-- The answer of the handler when `fetchFromGdelt` throws. -/
theorem factCheckHandler_of_error {provider : SearchParams → FetchOutcome}
    {body : Option RequestBody} {t : JSString} {e : Fault}
    (h : bodyText body = some t) (ht : trim t ≠ [])
    (hf : fetchFromGdelt provider (queryOf t) = .error e) :
    factCheckHandler provider body =
      { response := internalError, adapterCalls := [queryOf t] } := by
  rw [factCheckHandler_text provider body t h ht, hf]

/-- The adapter on an answer of a status outside 200 to 299: what the awaited
`res.text()` gives decides. -/
theorem fetchFromGdelt_not_ok (provider : SearchParams → FetchOutcome) (query : JSString)
    (res : Response) (hres : provider (gdeltParams query) = .resolved res)
    (hok : res.isOk = false) :
    fetchFromGdelt provider query =
      match readText res.body with
      | .error e => .error e
      | .ok _ => .ok [] := by
  unfold fetchFromGdelt
  simp [hres, hok]

theorem readText_of_readable {body : Body} (h : body ≠ .unreadable) : readText body = .ok () := by
  cases body with
  | unreadable => exact absurd rfl h
  | notJson => rfl
  | jsonNull => rfl
  | json a d => rfl

/-- The adapter on an answer of a status from 200 to 299. -/
theorem fetchFromGdelt_ok (provider : SearchParams → FetchOutcome) (query : JSString)
    (res : Response) (hres : provider (gdeltParams query) = .resolved res)
    (hok : res.isOk = true) :
    fetchFromGdelt provider query =
      match res.body with
      | .unreadable => .error .bodyError
      | .notJson => .error .syntaxError
      | .jsonNull => .error .typeError
      | .json articles documents =>
        match pickDocuments articles documents with
        | .items l => .ok (l.map normalizeItem)
        | _ => .error .typeError := by
  unfold fetchFromGdelt
  simp only [hres, hok]
  rfl

/-- C13, as it stands, fails: with an answer of status 503 whose body cannot be
read, the awaited `res.text()` of the log line rejects, `fetchFromGdelt` throws
and the handler answers HTTP 500 `internal_error`. -/
theorem handler_non_success_unreadable :
    unreadableAnswer.isOk = false ∧
    fetchFromGdelt (constProvider (.resolved unreadableAnswer))
      (queryOf (utf16 "the sky is blue")) = .error .bodyError ∧
    (factCheckHandler (constProvider (.resolved unreadableAnswer))
      (textBody (utf16 "the sky is blue"))).response = internalError ∧
    (factCheckHandler (constProvider (.resolved unreadableAnswer))
      (textBody (utf16 "the sky is blue"))).response.status ≠ 200 :=
  ⟨rfl, rfl, rfl, by decide⟩

/-- C13, amended: when the provider answers the query of a non-blank text with a
status outside 200 to 299 and the body of the answer can be read,
`fetchFromGdelt` gives the empty list and the handler answers HTTP 200 with
`ok: true` and the verdict of score 25 without matches, never an error. -/
theorem handler_non_success (provider : SearchParams → FetchOutcome) (text : JSString)
    (res : Response) (htext : trim text ≠ [])
    (hres : provider (gdeltParams (queryOf text)) = .resolved res)
    (hok : res.isOk = false) (hbody : res.body ≠ .unreadable) :
    fetchFromGdelt provider (queryOf text) = .ok [] ∧
    (factCheckHandler provider (textBody text)).response.status = 200 ∧
    (factCheckHandler provider (textBody text)).response.ok = true ∧
    (factCheckHandler provider (textBody text)).response.error = none ∧
    ∃ v, (factCheckHandler provider (textBody text)).response.reliability = some v ∧
      v.score = 25 ∧ v.topMatches = [] := by
  have hf := fetchFromGdelt_not_ok provider (queryOf text) res hres hok
  rw [readText_of_readable hbody] at hf
  have hf2 : fetchFromGdelt provider (queryOf text) = .ok [] := hf
  rw [factCheckHandler_of_ok (bodyText_textBody text) htext hf2]
  exact ⟨hf2, rfl, rfl, rfl, _, rfl, rfl, rfl⟩

/-- C13 amended, at the text `the sky is blue` and an answer of status 503
whose body can be read: HTTP 200 and the verdict of score 25. -/
theorem handler_non_success_witness :
    (factCheckHandler (constProvider (.resolved unavailable))
      (textBody (utf16 "the sky is blue"))).response =
      factChecked (buildReliability (utf16 "the sky is blue") []) ∧
    (fetchFromGdelt (constProvider (.resolved unavailable))
        (queryOf (utf16 "the sky is blue")) = .ok [] ∧
      (factCheckHandler (constProvider (.resolved unavailable))
        (textBody (utf16 "the sky is blue"))).response.status = 200 ∧
      (factCheckHandler (constProvider (.resolved unavailable))
        (textBody (utf16 "the sky is blue"))).response.ok = true ∧
      (factCheckHandler (constProvider (.resolved unavailable))
        (textBody (utf16 "the sky is blue"))).response.error = none ∧
      ∃ v, (factCheckHandler (constProvider (.resolved unavailable))
          (textBody (utf16 "the sky is blue"))).response.reliability = some v ∧
        v.score = 25 ∧ v.topMatches = []) :=
  ⟨rfl,
    handler_non_success (constProvider (.resolved unavailable))
      (utf16 "the sky is blue") unavailable (by decide) rfl (by decide) (by decide)⟩

/-- C14, as it stands, fails: the text `hello` is not blank and the provider
call completes, with status 200 and a body that is no JSON, and the handler
answers HTTP 500 `internal_error`, not HTTP 200. -/
theorem handler_completed_call_500 :
    trim (utf16 "hello") ≠ [] ∧
    constProvider (.resolved notJsonAnswer) (gdeltParams (queryOf (utf16 "hello")))
      = .resolved notJsonAnswer ∧
    (factCheckHandler (constProvider (.resolved notJsonAnswer))
      (textBody (utf16 "hello"))).response = internalError ∧
    (factCheckHandler (constProvider (.resolved notJsonAnswer))
      (textBody (utf16 "hello"))).response.status ≠ 200 :=
  ⟨by decide, rfl, rfl, by decide⟩

/-- C14, amended: the handler answers HTTP 400 exactly when `text` is missing or
blank after trimming; the body is then `{ ok: false, error: "text_required" }`
and `fetchFromGdelt` is not called; for any other text for which `fetchFromGdelt`
returns its articles, the answer is HTTP 200 with `ok: true`, the engine
`gdelt-doc-v2` and the verdict of `buildReliability` on the whole text. -/
theorem handler_validation (provider : SearchParams → FetchOutcome)
    (body : Option RequestBody) :
    ((factCheckHandler provider body).response.status = 400 ↔
      (bodyText body = none ∨ ∃ t, bodyText body = some t ∧ trim t = [])) ∧
    ((factCheckHandler provider body).response.status = 400 →
      (factCheckHandler provider body).response = textRequired ∧
      (factCheckHandler provider body).adapterCalls = []) ∧
    (∀ t articles, bodyText body = some t → trim t ≠ [] →
      fetchFromGdelt provider ((trim t).take 120) = .ok articles →
      (factCheckHandler provider body).response.status = 200 ∧
      (factCheckHandler provider body).response.ok = true ∧
      (factCheckHandler provider body).response.engine = some "gdelt-doc-v2" ∧
      (factCheckHandler provider body).response.reliability =
        some (buildReliability t articles)) := by
  have key : (factCheckHandler provider body).response.status = 400 →
      (bodyText body = none ∨ ∃ t, bodyText body = some t ∧ trim t = []) := by
    intro h400
    cases hb : bodyText body with
    | none => exact Or.inl rfl
    | some t =>
      right
      refine ⟨t, rfl, ?_⟩
      by_contra ht
      cases hf : fetchFromGdelt provider (queryOf t) with
      | ok articles =>
        rw [factCheckHandler_of_ok hb ht hf] at h400
        simp [factChecked] at h400
      | error e =>
        rw [factCheckHandler_of_error hb ht hf] at h400
        simp [internalError] at h400
  refine ⟨⟨key, ?_⟩, ?_, ?_⟩
  · intro h
    rw [factCheckHandler_blank provider body h]
    rfl
  · intro h400
    rw [factCheckHandler_blank provider body (key h400)]
    exact ⟨rfl, rfl⟩
  · intro t articles hb ht hf
    rw [factCheckHandler_of_ok hb ht hf]
    exact ⟨rfl, rfl, rfl, rfl⟩

/-- For a text that is not blank the handler calls `fetchFromGdelt` once, with
the trimmed text cut at 120 units, and when that call throws the answer is
HTTP 500 with `{ ok: false, error: "internal_error" }`. -/
theorem handler_call_and_fault (provider : SearchParams → FetchOutcome)
    (body : Option RequestBody) (t : JSString) (hb : bodyText body = some t)
    (ht : trim t ≠ []) :
    (factCheckHandler provider body).adapterCalls = [(trim t).take 120] ∧
    (∀ e, fetchFromGdelt provider ((trim t).take 120) = .error e →
      (factCheckHandler provider body).response = internalError) := by
  constructor
  · cases hf : fetchFromGdelt provider (queryOf t) with
    | ok articles => rw [factCheckHandler_of_ok hb ht hf]; rfl
    | error e => rw [factCheckHandler_of_error hb ht hf]; rfl
  · intro e hf
    rw [factCheckHandler_of_error hb ht hf]

/-- C19, as it stands, fails: a success answer whose body is no JSON makes
`fetchFromGdelt` throw, and the handler answers HTTP 500 `internal_error`. -/
theorem handler_unparseable_body :
    fetchFromGdelt (constProvider (.resolved notJsonAnswer))
      (queryOf (utf16 "the sky is blue")) = .error .syntaxError ∧
    (factCheckHandler (constProvider (.resolved notJsonAnswer))
      (textBody (utf16 "the sky is blue"))).response = internalError ∧
    (factCheckHandler (constProvider (.resolved notJsonAnswer))
      (textBody (utf16 "the sky is blue"))).response.status ≠ 200 :=
  ⟨rfl, rfl, by decide⟩

/-- The handler on a success answer whose chosen document field is an array. -/
theorem handler_of_items {provider : SearchParams → FetchOutcome} {text : JSString}
    {res : Response} {articles documents : DocField} {l : List RawItem}
    (htext : trim text ≠ [])
    (hres : provider (gdeltParams (queryOf text)) = .resolved res) (hok : res.isOk = true)
    (hb : res.body = .json articles documents)
    (hp : pickDocuments articles documents = .items l) :
    fetchFromGdelt provider (queryOf text) = .ok (l.map normalizeItem) ∧
    (factCheckHandler provider (textBody text)).response =
      factChecked (buildReliability text (l.map normalizeItem)) := by
  have hf := fetchFromGdelt_ok provider (queryOf text) res hres hok
  rw [hb] at hf
  simp only [hp] at hf
  rw [factCheckHandler_of_ok (bodyText_textBody text) htext hf]
  exact ⟨hf, rfl⟩

/-- The handler on a success answer whose chosen document field is no array. -/
theorem handler_of_notArray {provider : SearchParams → FetchOutcome} {text : JSString}
    {res : Response} {articles documents : DocField} (htext : trim text ≠ [])
    (hres : provider (gdeltParams (queryOf text)) = .resolved res) (hok : res.isOk = true)
    (hb : res.body = .json articles documents)
    (hp : pickDocuments articles documents = .notArray) :
    fetchFromGdelt provider (queryOf text) = .error .typeError ∧
    (factCheckHandler provider (textBody text)).response = internalError := by
  have hf := fetchFromGdelt_ok provider (queryOf text) res hres hok
  rw [hb] at hf
  simp only [hp] at hf
  rw [factCheckHandler_of_error (bodyText_textBody text) htext hf]
  exact ⟨hf, rfl⟩

/-- C19, amended: for a non-blank text and a success answer, `fetchFromGdelt`
throws and the handler answers HTTP 500 `internal_error` when the body is no
JSON, and when the document field that `data.articles || data.documents` picks
holds a truthy value other than an array: `articles` holds one, or `articles` is
missing or falsy and `documents` holds one.  When both fields are missing or
falsy, `fetchFromGdelt` gives the empty list and the handler answers HTTP 200
with the verdict of score 25. -/
theorem handler_malformed (provider : SearchParams → FetchOutcome) (text : JSString)
    (res : Response) (htext : trim text ≠ [])
    (hres : provider (gdeltParams (queryOf text)) = .resolved res)
    (hok : res.isOk = true) :
    (res.body = .notJson →
      fetchFromGdelt provider (queryOf text) = .error .syntaxError ∧
      (factCheckHandler provider (textBody text)).response = internalError) ∧
    (∀ documents, res.body = .json .notArray documents →
      fetchFromGdelt provider (queryOf text) = .error .typeError ∧
      (factCheckHandler provider (textBody text)).response = internalError) ∧
    (res.body = .json .falsy .notArray →
      fetchFromGdelt provider (queryOf text) = .error .typeError ∧
      (factCheckHandler provider (textBody text)).response = internalError) ∧
    (res.body = .json .falsy .falsy →
      fetchFromGdelt provider (queryOf text) = .ok [] ∧
      (factCheckHandler provider (textBody text)).response =
        factChecked (buildReliability text []) ∧
      (factCheckHandler provider (textBody text)).response.status = 200 ∧
      (buildReliability text []).score = 25) := by
  refine ⟨?_, ?_, ?_, ?_⟩
  · intro hb
    have hf := fetchFromGdelt_ok provider (queryOf text) res hres hok
    rw [hb] at hf
    have hf2 : fetchFromGdelt provider (queryOf text) = .error .syntaxError := hf
    rw [factCheckHandler_of_error (bodyText_textBody text) htext hf2]
    exact ⟨hf2, rfl⟩
  · intro documents hb
    exact handler_of_notArray htext hres hok hb rfl
  · intro hb
    exact handler_of_notArray htext hres hok hb rfl
  · intro hb
    obtain ⟨hf, hh⟩ := handler_of_items (l := []) htext hres hok hb rfl
    exact ⟨hf, hh, by rw [hh]; rfl, rfl⟩

/-- C19 amended, at the text `the sky is blue` and the answer of status 200
whose `articles` field holds a truthy value that is no array: HTTP 500. -/
theorem handler_malformed_witness :
    (factCheckHandler (constProvider (.resolved notArrayAnswer))
      (textBody (utf16 "the sky is blue"))).response.status = 500 ∧
    ((notArrayAnswer.body = .notJson →
      fetchFromGdelt (constProvider (.resolved notArrayAnswer))
        (queryOf (utf16 "the sky is blue")) = .error .syntaxError ∧
      (factCheckHandler (constProvider (.resolved notArrayAnswer))
        (textBody (utf16 "the sky is blue"))).response = internalError) ∧
    (∀ documents, notArrayAnswer.body = .json .notArray documents →
      fetchFromGdelt (constProvider (.resolved notArrayAnswer))
        (queryOf (utf16 "the sky is blue")) = .error .typeError ∧
      (factCheckHandler (constProvider (.resolved notArrayAnswer))
        (textBody (utf16 "the sky is blue"))).response = internalError) ∧
    (notArrayAnswer.body = .json .falsy .notArray →
      fetchFromGdelt (constProvider (.resolved notArrayAnswer))
        (queryOf (utf16 "the sky is blue")) = .error .typeError ∧
      (factCheckHandler (constProvider (.resolved notArrayAnswer))
        (textBody (utf16 "the sky is blue"))).response = internalError) ∧
    (notArrayAnswer.body = .json .falsy .falsy →
      fetchFromGdelt (constProvider (.resolved notArrayAnswer))
        (queryOf (utf16 "the sky is blue")) = .ok [] ∧
      (factCheckHandler (constProvider (.resolved notArrayAnswer))
        (textBody (utf16 "the sky is blue"))).response =
        factChecked (buildReliability (utf16 "the sky is blue") []) ∧
      (factCheckHandler (constProvider (.resolved notArrayAnswer))
        (textBody (utf16 "the sky is blue"))).response.status = 200 ∧
      (buildReliability (utf16 "the sky is blue") []).score = 25)) :=
  ⟨by decide,
    handler_malformed (constProvider (.resolved notArrayAnswer))
      (utf16 "the sky is blue") notArrayAnswer (by decide) rfl (by decide)⟩

/-- The example of an empty array in `articles` beside a string in `documents`:
the array is picked, and the handler answers HTTP 200 with the verdict of score
25. -/
theorem handler_short_circuit_example :
    fetchFromGdelt (constProvider (.resolved emptyArrayAnswer))
      (queryOf (utf16 "the sky is blue")) = .ok [] ∧
    (factCheckHandler (constProvider (.resolved emptyArrayAnswer))
      (textBody (utf16 "the sky is blue"))).response =
      factChecked (buildReliability (utf16 "the sky is blue") []) :=
  ⟨rfl, rfl⟩

/-! ## A trailing space and the tokens -/

theorem splitSpaces_space_space {c d : Nat} (ds : JSString) (hc : isSpace c = true)
    (hd : isSpace d = true) : splitSpaces (c :: d :: ds) = splitSpaces (d :: ds) := by
  rw [splitSpaces]
  simp only [hc, hd, if_true]

theorem splitSpaces_space_word {c d : Nat} (ds : JSString) (hc : isSpace c = true)
    (hd : ¬ isSpace d = true) : splitSpaces (c :: d :: ds) = [] :: splitSpaces (d :: ds) := by
  rw [splitSpaces]
  simp [hc, hd]

theorem splitSpaces_word {c : Nat} {cs w : JSString} {ws : List JSString}
    (hc : ¬ isSpace c = true) (h : splitSpaces cs = w :: ws) :
    splitSpaces (c :: cs) = (c :: w) :: ws := by
  unfold splitSpaces
  simp [hc, h]

/-- A space put at the end of a text leaves the first piece as it is and adds
at most empty pieces. -/
theorem splitSpaces_append_space {s : Nat} (hs : isSpace s = true) (l : JSString)
    (hl : l ≠ []) :
    ∃ w ws ws2, splitSpaces l = w :: ws ∧ splitSpaces (l ++ [s]) = w :: ws2 ∧
      filterBoolean ws2 = filterBoolean ws := by
  induction l with
  | nil => exact absurd rfl hl
  | cons c cs ih =>
    cases cs with
    | nil =>
      by_cases hc : isSpace c = true
      · refine ⟨[], [[]], [[]], ?_, ?_, rfl⟩
        · rw [splitSpaces]
          simp only [hc, if_true]
        · show splitSpaces (c :: s :: []) = _
          rw [splitSpaces_space_space [] hc hs, splitSpaces]
          simp only [hs, if_true]
      · refine ⟨[c], [], [[]], ?_, ?_, rfl⟩
        · exact splitSpaces_word hc rfl
        · show splitSpaces (c :: s :: []) = _
          apply splitSpaces_word hc
          rw [splitSpaces]
          simp only [hs, if_true]
    | cons d ds =>
      obtain ⟨w, ws, ws2, h1, h2, h3⟩ := ih (List.cons_ne_nil _ _)
      by_cases hc : isSpace c = true
      · by_cases hd : isSpace d = true
        · refine ⟨w, ws, ws2, ?_, ?_, h3⟩
          · rw [splitSpaces_space_space ds hc hd, h1]
          · show splitSpaces (c :: d :: (ds ++ [s])) = _
            rw [splitSpaces_space_space _ hc hd]
            exact h2
        · refine ⟨[], w :: ws, w :: ws2, ?_, ?_, ?_⟩
          · rw [splitSpaces_space_word ds hc hd, h1]
          · show splitSpaces (c :: d :: (ds ++ [s])) = _
            rw [splitSpaces_space_word _ hc hd]
            exact congrArg _ h2
          · unfold filterBoolean at h3 ⊢
            rw [List.filter_cons, List.filter_cons, h3]
      · exact ⟨c :: w, ws, ws2, splitSpaces_word hc h1, splitSpaces_word hc h2, h3⟩

theorem filterBoolean_splitSpaces_append {s : Nat} (hs : isSpace s = true) (l : JSString) :
    filterBoolean (splitSpaces (l ++ [s])) = filterBoolean (splitSpaces l) := by
  cases l with
  | nil =>
    show filterBoolean (splitSpaces [s]) = filterBoolean (splitSpaces [])
    rw [splitSpaces, splitSpaces]
    simp only [hs, if_true]
    rfl
  | cons c cs =>
    obtain ⟨w, ws, ws2, h1, h2, h3⟩ := splitSpaces_append_space hs (c :: cs) (List.cons_ne_nil _ _)
    rw [h1, h2]
    unfold filterBoolean at h3 ⊢
    rw [List.filter_cons, List.filter_cons, h3]

/-- A space put at the end of a text does not change its tokens. -/
theorem tokenize_append_space (text : JSString) : tokenize (text ++ [0x20]) = tokenize text := by
  unfold tokenize
  have h : replaceNonWord (toLowerCase (text ++ [0x20])) =
      replaceNonWord (toLowerCase text) ++ [0x20] := by
    unfold toLowerCase replaceNonWord
    rw [List.flatMap_append, List.map_append]
    rfl
  rw [h]
  exact filterBoolean_splitSpaces_append (by decide) _

/-! ## Scenarios of the score (C15, C16, C20) -/

/-- The score of a non-empty list is the ladder value of the best similarity. -/
theorem buildReliability_score_max (text : JSString) (articles : List Article)
    (h : articles ≠ []) :
    ∃ a ∈ articles,
      (∀ b ∈ articles, similarity text (baseText b) ≤ similarity text (baseText a)) ∧
      (buildReliability text articles).score = (ladder (similarity text (baseText a))).1 := by
  obtain ⟨top, rest, hs, hv⟩ := buildReliability_of_ne_nil text articles h
  obtain ⟨hmem, hmax⟩ := head_scoredList_max hs
  obtain ⟨a, ha, rfl⟩ := List.mem_map.mp hmem
  exact ⟨a, ha, hmax, by rw [hv]; rfl⟩

theorem similarity_title_only {text : JSString} {a : Article} (ht : tokenize text ≠ [])
    (htitle : a.title = text) (hdesc : a.description = []) :
    similarity text (baseText a) = 1 := by
  have hb : tokenSet (baseText a) = tokenSet text := by
    unfold tokenSet
    rw [baseText_eq, htitle, hdesc, List.append_nil, tokenize_append_space]
  rw [similarity_eq_div, hb, ← similarity_eq_div]
  exact similarity_self ht

/-- C15: when the text has a token and some article of the list has the text as
its title and an empty description, that article has similarity 1 and the score
is 90. -/
theorem exact_title_scores_90 (text : JSString) (articles : List Article) (a : Article)
    (ht : tokenize text ≠ []) (ha : a ∈ articles) (htitle : a.title = text)
    (hdesc : a.description = []) :
    similarity text (a.title ++ [0x20] ++ a.description) = 1 ∧
    (scoreArticle text a).sim = 1 ∧
    (buildReliability text articles).score = 90 := by
  have h1 : similarity text (baseText a) = 1 := similarity_title_only ht htitle hdesc
  refine ⟨by rw [← baseText_eq]; exact h1, h1, ?_⟩
  obtain ⟨b, _, hmax, hscore⟩ :=
    buildReliability_score_max text articles (List.ne_nil_of_mem ha)
  have hb : similarity text (baseText b) = 1 :=
    le_antisymm (similarity_le_one _ _) (h1 ▸ hmax a ha)
  rw [hscore, hb, ladder_score]
  norm_num

/-- C15, at the text `แมวกินปลา` with the one article of that title. -/
theorem exact_title_scores_90_witness :
    similarity (utf16 "แมวกินปลา")
      ((mkArticle "แมวกินปลา" "").title ++ [0x20] ++ (mkArticle "แมวกินปลา" "").description) = 1 ∧
    (scoreArticle (utf16 "แมวกินปลา") (mkArticle "แมวกินปลา" "")).sim = 1 ∧
    (buildReliability (utf16 "แมวกินปลา") [mkArticle "แมวกินปลา" ""]).score = 90 :=
  exact_title_scores_90 (utf16 "แมวกินปลา") [mkArticle "แมวกินปลา" ""] (mkArticle "แมวกินปลา" "")
    (by decide) (List.mem_singleton.mpr rfl) (by decide) (by decide)

theorem similarity_eq_zero_of_disjoint {a b : JSString}
    (h : ∀ t ∈ tokenize a, t ∉ tokenize b) : similarity a b = 0 := by
  rw [similarity_eq_div]
  have h0 : tokenSet a ∩ tokenSet b = ∅ := by
    apply Finset.eq_empty_of_forall_not_mem
    intro t ht
    rw [Finset.mem_inter] at ht
    unfold tokenSet at ht
    rw [List.mem_toFinset, List.mem_toFinset] at ht
    exact h t ht.1 ht.2
  rw [h0]
  simp

/-- C16: when the list is not empty and no article shares a token with the text,
every article has similarity 0 and the score is 30. -/
theorem no_shared_token_scores_30 (text : JSString) (articles : List Article)
    (hne : articles ≠ [])
    (h : ∀ a ∈ articles, ∀ t ∈ tokenize text,
      t ∉ tokenize (a.title ++ [0x20] ++ a.description)) :
    (∀ a ∈ articles, similarity text (a.title ++ [0x20] ++ a.description) = 0) ∧
    (buildReliability text articles).score = 30 := by
  have h0 : ∀ a ∈ articles, similarity text (baseText a) = 0 := by
    intro a ha
    rw [baseText_eq]
    exact similarity_eq_zero_of_disjoint (h a ha)
  refine ⟨fun a ha => by rw [← baseText_eq]; exact h0 a ha, ?_⟩
  obtain ⟨b, hb, _, hscore⟩ := buildReliability_score_max text articles hne
  rw [hscore, h0 b hb, ladder_score]
  norm_num

/-- C16, at the text `the sky is blue` with one article on economic news. -/
theorem no_shared_token_scores_30_witness :
    (∀ a ∈ [mkArticle "unrelated economic news" "stocks fell"],
      similarity (utf16 "the sky is blue") (a.title ++ [0x20] ++ a.description) = 0) ∧
    (buildReliability (utf16 "the sky is blue")
      [mkArticle "unrelated economic news" "stocks fell"]).score = 30 :=
  no_shared_token_scores_30 (utf16 "the sky is blue")
    [mkArticle "unrelated economic news" "stocks fell"] (List.cons_ne_nil _ _) (by decide)

theorem inter_card_le_min (a b : JSString) :
    (tokenSet a ∩ tokenSet b).card ≤ min (tokenSet a).card (tokenSet b).card :=
  le_min (Finset.card_le_card Finset.inter_subset_left)
    (Finset.card_le_card Finset.inter_subset_right)

theorem similarity_le_min_div_max (a b : JSString) :
    similarity a b ≤ ((min (tokenSet a).card (tokenSet b).card : Nat) : ℚ) /
      ((max (tokenSet a).card (tokenSet b).card : Nat) : ℚ) := by
  rw [similarity_eq_div]
  apply div_le_div_of_nonneg_right
  · exact_mod_cast inter_card_le_min a b
  · positivity

theorem similarity_le_quarter {a b : JSString}
    (h : 4 * (tokenSet a).card ≤ (tokenSet b).card ∨
      4 * (tokenSet b).card ≤ (tokenSet a).card) : similarity a b ≤ 1 / 4 := by
  rw [similarity_eq_div]
  have hi := inter_card_le_min a b
  have h4 : 4 * (tokenSet a ∩ tokenSet b).card ≤ max (tokenSet a).card (tokenSet b).card := by
    have h1 := le_max_left (tokenSet a).card (tokenSet b).card
    have h2 := le_max_right (tokenSet a).card (tokenSet b).card
    have h3 := min_le_left (tokenSet a).card (tokenSet b).card
    have h5 := min_le_right (tokenSet a).card (tokenSet b).card
    omega
  by_cases hz : max (tokenSet a).card (tokenSet b).card = 0
  · rw [hz]
    simp
  · have hpos : (0 : ℚ) < ((max (tokenSet a).card (tokenSet b).card : Nat) : ℚ) := by
      exact_mod_cast Nat.pos_of_ne_zero hz
    rw [div_le_iff₀ hpos]
    have h4q : (4 : ℚ) * ((tokenSet a ∩ tokenSet b).card : ℚ) ≤
        ((max (tokenSet a).card (tokenSet b).card : Nat) : ℚ) := by
      exact_mod_cast h4
    linarith

/-- C20: with non-empty token sets `SA` and `SB`, `similarity` is at most
`min |SA| |SB| / max |SA| |SB|`; so when, for each article of a non-empty list,
one of the two token sets (of the text, of the article) is at least four times
as large as the other, the score is 30. -/
theorem size_ratio_bounds_score (text : JSString) (articles : List Article) :
    (∀ a b : JSString, tokenSet a ≠ ∅ → tokenSet b ≠ ∅ →
      similarity a b ≤ ((min (tokenSet a).card (tokenSet b).card : Nat) : ℚ) /
        ((max (tokenSet a).card (tokenSet b).card : Nat) : ℚ)) ∧
    (articles ≠ [] →
      (∀ a ∈ articles,
        4 * (tokenSet text).card ≤ (tokenSet (a.title ++ [0x20] ++ a.description)).card ∨
        4 * (tokenSet (a.title ++ [0x20] ++ a.description)).card ≤ (tokenSet text).card) →
      (buildReliability text articles).score = 30) := by
  refine ⟨fun a b _ _ => similarity_le_min_div_max a b, ?_⟩
  intro hne h
  obtain ⟨b, hb, _, hscore⟩ := buildReliability_score_max text articles hne
  have hq : similarity text (baseText b) ≤ 1 / 4 := by
    rw [baseText_eq]
    exact similarity_le_quarter (h b hb)
  rw [hscore, ladder_score]
  have h1 : ¬ similarity text (baseText b) > 0.7 := by
    norm_num
    linarith
  have h2 : ¬ similarity text (baseText b) > 0.45 := by
    norm_num
    linarith
  have h3 : ¬ similarity text (baseText b) > 0.25 := by
    norm_num
    linarith
  rw [if_neg h1, if_neg h2, if_neg h3]

/-! ## The reasons (C17) -/

/-- C17, as it stands, fails: the reason of the empty list is the Thai sentence
of the source, not the English one. -/
theorem reason_is_thai :
    (buildReliability [] []).reason = "ไม่พบข่าวที่ใกล้เคียง" ∧
    (buildReliability [] []).reason ≠ "no comparable news found" := by
  decide

/-- C17, amended: score and reason of every verdict are one of the five pairs of
the source, the reasons being its Thai sentences: 25 with `ไม่พบข่าวที่ใกล้เคียง`,
90 with `พบข่าวที่มีเนื้อหาใกล้เคียงมากในฐานข่าวระดับโลก`, 70 with
`พบข่าวที่ใกล้เคียงระดับหนึ่ง`, 50 with `พบข่าวที่เกี่ยวข้องห่าง ๆ` and 30 with
`ข่าวที่พบยังไม่ตรงสาระสำคัญของข้อความนี้`. -/
theorem buildReliability_reason (text : JSString) (articles : List Article) :
    ((buildReliability text articles).score, (buildReliability text articles).reason)
      ∈ verdictTable := by
  by_cases h : articles = []
  · subst h
    rw [buildReliability_nil]
    simp [verdictTable]
  · obtain ⟨top, rest, _, hv⟩ := buildReliability_of_ne_nil text articles h
    rw [hv]
    show ((ladder top.sim).1, (ladder top.sim).2) ∈ verdictTable
    unfold ladder
    split_ifs <;> simp [verdictTable]

/-! ## Stability of the sort (C18) -/

/-- The sort keeps the articles of one similarity in their order: on them the
sorted array and the input agree. -/
theorem filter_scoredList (text : JSString) (articles : List Article) (q : ℚ) :
    (scoredList text articles).filter (fun s => decide (s.sim = q)) =
      (articles.map (scoreArticle text)).filter (fun s => decide (s.sim = q)) := by
  have hpw : ((articles.map (scoreArticle text)).filter
      (fun s => decide (s.sim = q))).Pairwise simGe := by
    apply List.pairwise_of_forall_mem_list
    intro x hx y hy
    have hxq : x.sim = q := by simpa using (List.mem_filter.mp hx).2
    have hyq : y.sim = q := by simpa using (List.mem_filter.mp hy).2
    show y.sim ≤ x.sim
    rw [hxq, hyq]
  have hsub : List.Sublist
      ((articles.map (scoreArticle text)).filter (fun s => decide (s.sim = q)))
      (scoredList text articles) :=
    List.sublist_insertionSort hpw (List.filter_sublist _)
  have hsub2 := hsub.filter (fun s => decide (s.sim = q))
  rw [List.filter_filter] at hsub2
  simp only [Bool.and_self] at hsub2
  have hlen := ((scoredList_perm text articles).filter (fun s => decide (s.sim = q))).length_eq
  exact (hsub2.eq_of_length hlen.symm).symm

theorem pair_filter_self {x y : ScoredArticle} (h : x.sim = y.sim) :
    [x, y].filter (fun s => decide (s.sim = y.sim)) = [x, y] := by
  simp [List.filter_cons, h]

/-- C18: the sort is stable.  The matches of one similarity are the first input
articles of that similarity, in the order of the input; two matches of equal
similarity stand in the order they have in the input; and `topMatch` is the first
input article that has its similarity, which is the largest one. -/
theorem buildReliability_stable (text : JSString) (articles : List Article) :
    (∀ q : ℚ, (buildReliability text articles).topMatches.filter (fun s => decide (s.sim = q))
      <+: (articles.map (scoreArticle text)).filter (fun s => decide (s.sim = q))) ∧
    (∀ x y : ScoredArticle, x.sim = y.sim →
      List.Sublist [x, y] (buildReliability text articles).topMatches →
      List.Sublist [x, y] (articles.map (scoreArticle text))) ∧
    (∀ top, (buildReliability text articles).topMatch = some top →
      ((articles.map (scoreArticle text)).filter (fun s => decide (s.sim = top.sim))).head?
        = some top ∧
      ∀ a ∈ articles, similarity text (baseText a) ≤ top.sim) := by
  have hpre : ∀ q : ℚ,
      (buildReliability text articles).topMatches.filter (fun s => decide (s.sim = q))
        <+: (articles.map (scoreArticle text)).filter (fun s => decide (s.sim = q)) := by
    intro q
    rw [topMatches_eq, ← filter_scoredList]
    apply List.IsPrefix.filter
    exact List.take_prefix 10 _
  refine ⟨hpre, ?_, ?_⟩
  · intro x y hxy hsub
    have h1 := hsub.filter (fun s => decide (s.sim = y.sim))
    rw [pair_filter_self hxy] at h1
    exact (h1.trans (hpre y.sim).sublist).trans (List.filter_sublist _)
  · intro top htop
    by_cases hn : articles = []
    · subst hn
      rw [buildReliability_nil] at htop
      exact absurd htop (by simp)
    · obtain ⟨t, rest, hs, hv⟩ := buildReliability_of_ne_nil text articles hn
      rw [hv] at htop
      simp only [Option.some.injEq] at htop
      subst htop
      refine ⟨?_, (head_scoredList_max hs).2⟩
      rw [← filter_scoredList, hs]
      simp [List.filter_cons]

/-- The sort on three articles of which the first and the last tie: the first
one is `topMatch`, and the matches keep the two in the order of the input. -/
theorem buildReliability_tie_example :
    ((buildReliability (utf16 "cat eats fish") tiedArticles).topMatches.map
      fun s => (s.title, s.sim)) =
      [(utf16 "cat naps", 1 / 3), (utf16 "fish swims", 1 / 3), (utf16 "dog", 0)] ∧
    ((buildReliability (utf16 "cat eats fish") tiedArticles).topMatch.map fun s => s.title)
      = some (utf16 "cat naps") := by
  decide!

end Server
